import Mathlib

/-!
# Verification of the tether's Linux support code (lib/tether/tether_linux.go)
and of Handle.SetSpec (lib/portlayer/exec/handle.go)

A shallow embedding of `Mkdev`, `findExecutable`, `lookPath`, the child
reaper's drain loop, `stopReaper` and `Handle.SetSpec`, followed by the
theorems that settle the specification's claims about them.

Go strings are embedded as lists of characters: every character the code
inspects ('/', ':', '.', the letters of "PATH=") is ASCII, so the byte-wise
operations of package strings coincide with the list operations used here.
-/

namespace Tether

/-! ## Strings -/

/-- A Go string, as the list of its characters. -/
abbrev GoString := List Char

/-- Go strings.HasPrefix. -/
def HasPrefix (s pre : GoString) : Bool := pre.isPrefixOf s

/-- Go strings.Contains, for a one-character substring. -/
def Contains (s : GoString) (c : Char) : Bool := s.contains c

/-- Go strings.TrimPrefix: s without the leading pre, or s itself when it does
not start with pre. -/
def TrimPrefix (s pre : GoString) : GoString :=
  if HasPrefix s pre then s.drop pre.length else s

/-- Go strings.Split for a one-character separator: the pieces between the
separators; the empty string yields one empty piece. -/
def Split (sep : Char) : GoString → List GoString
  | [] => [[]]
  | c :: cs =>
    if c = sep then [] :: Split sep cs
    else
      match Split sep cs with
      | [] => [[c]]
      | seg :: rest => (c :: seg) :: rest

/-- Go filepath.SplitList on Unix: the empty string has no element at all,
any other string is split on the list separator ':'. -/
def SplitList (path : GoString) : List GoString :=
  if path = [] then [] else Split ':' path

/-! ## Files -/

/-- Go os.FileMode: a 32 bit word, permission bits lowest. -/
abbrev FileMode := Nat

def ModeDir : FileMode := 2 ^ 31
def ModeSymlink : FileMode := 2 ^ 27
def ModeDevice : FileMode := 2 ^ 26
def ModeNamedPipe : FileMode := 2 ^ 25
def ModeSocket : FileMode := 2 ^ 24

/-- Go os.ModeType, the mask of the file type bits. -/
def ModeType : FileMode := ModeDir ||| ModeSymlink ||| ModeNamedPipe ||| ModeSocket ||| ModeDevice

/-- Go FileMode.IsDir. -/
def IsDir (m : FileMode) : Bool := m &&& ModeDir != 0

/-- Go FileMode.IsRegular: no type bit is set. -/
def IsRegular (m : FileMode) : Bool := m &&& ModeType == 0

/-- The errors the embedded functions return. -/
inductive GoError where
  /-- The error of a failed os.Stat: the path and the errno of the system call. -/
  | PathError (path : GoString) (errno : Nat)
  /-- Go os.ErrPermission. -/
  | ErrPermission
  /-- An error built by fmt.Errorf, with its message. -/
  | Errorf (msg : GoString)
  deriving DecidableEq, Repr

/-- A filesystem state, as os.Stat sees it: for every path either the mode of
the file it names (symbolic links followed) or the errno of the failure. -/
abbrev FileSystem := GoString → Except Nat FileMode

/-- The source's findExecutable (tether_linux.go:100-109): nil (none) when the
file can be stat-ed, is not a directory and has an execute bit. -/
def findExecutable (fs : FileSystem) (file : GoString) : Option GoError :=
  match fs file with
  | .error errno => some (.PathError file errno)
  | .ok m => if !IsDir m && (m &&& 0o111 != 0) then none else some .ErrPermission

/-- What a call of lookPath yields: the two returned values, and the paths it
handed to findExecutable, in call order. -/
structure LookResult where
  path : GoString
  err : Option GoError
  checked : List GoString
  deriving DecidableEq, Repr

/-- The first loop of lookPath (tether_linux.go:137-143): the first entry of
env that starts with "PATH=", or the empty string. -/
def pathenvOf : List GoString → GoString
  | [] => []
  | value :: rest => if HasPrefix value "PATH=".toList then value else pathenvOf rest

/-- The second loop of lookPath (tether_linux.go:148-157) over the remaining
directories, with the paths checked so far. -/
def searchDirs (fs : FileSystem) (file : GoString) : List GoString → List GoString → LookResult
  | [], checked =>
    ⟨[], some (.Errorf (file ++ ": no such executable in PATH".toList)), checked⟩
  | dir :: rest, checked =>
    let dir := if dir = [] then ['.'] else dir
    let path := dir ++ ['/'] ++ file
    match findExecutable fs path with
    | none => ⟨path, none, checked ++ [path]⟩
    | some _ => searchDirs fs file rest (checked ++ [path])

/-- The source's lookPath (tether_linux.go:114-160). -/
def lookPath (fs : FileSystem) (file : GoString) (env : List GoString) (dir : GoString) :
    LookResult :=
  if HasPrefix file "./".toList || HasPrefix file "../".toList then
    let file := dir ++ ['/'] ++ file
    match findExecutable fs file with
    | none => ⟨file, none, [file]⟩
    | some err => ⟨[], some err, [file]⟩
  else if Contains file '/' then
    match findExecutable fs file with
    | none => ⟨file, none, [file]⟩
    | some err => ⟨[], some err, [file]⟩
  else
    let pathenv := pathenvOf env
    let pathval := TrimPrefix pathenv "PATH=".toList
    let dirs := SplitList pathval
    searchDirs fs file dirs []

/-! ## The child reaper -/

/-- Go syscall.WaitStatus on Linux: the raw status word of wait4. -/
abbrev WaitStatus := Nat

/-- Go WaitStatus.Exited: the low seven bits are zero. -/
def WaitStatus.Exited (w : WaitStatus) : Bool := w &&& 0x7F == 0

/-- Go WaitStatus.Signaled: the low seven bits are neither "exited" nor "stopped". -/
def WaitStatus.Signaled (w : WaitStatus) : Bool := w &&& 0x7F != 0x7F && w &&& 0x7F != 0

/-- Go WaitStatus.Stopped. -/
def WaitStatus.Stopped (w : WaitStatus) : Bool := w &&& 0xFF == 0x7F

/-- Go WaitStatus.Continued. -/
def WaitStatus.Continued (w : WaitStatus) : Bool := w == 0xFFFF

/-- Go WaitStatus.ExitStatus: -1 unless the process exited, else bits 8..15. -/
def WaitStatus.ExitStatus (w : WaitStatus) : Int :=
  if !WaitStatus.Exited w then -1 else ((w >>> 8 &&& 0xFF : Nat) : Int)

/-- The errno ECHILD of Linux. -/
def ECHILD : Nat := 10

/-- The errno EINTR of Linux. -/
def EINTR : Nat := 4

/-- What one call syscall.Wait4(-1, &status, WNOHANG, nil) yields: the returned
pid, the returned error (none for nil) and the status word it stored. -/
structure WaitResult where
  pid : Int
  err : Option Nat
  status : WaitStatus
  deriving DecidableEq, Repr

/-- A reference to a SessionConfig (the Go code holds pointers to them). -/
abbrev SessionRef := Nat

/-- The part of a session the reaper touches. -/
structure SessionConfig where
  ExitStatus : Int
  deriving DecidableEq, Repr

/-- The state of a Go channel as far as close is concerned. -/
inductive ChanState where
  | nilChan
  | opened
  | closed
  deriving DecidableEq, Repr

/-- The tether state the reaper code reads and writes: the correlation table
from process ID to session, the sessions behind the references, the sessions
handed to handleSessionExit so far (oldest first), the channel t.incoming, and
whether SIGCHLD is currently relayed to it. -/
structure tether where
  childPids : List (Int × SessionRef)
  sessions : SessionRef → SessionConfig
  exits : List SessionRef
  incoming : ChanState
  sigchldRelayed : Bool

/-- How a call ends: it returns, or it panics. -/
inductive Outcome where
  | returns
  | panics
  deriving DecidableEq, Repr

/-- The exit handler t.handleSessionExit, whose body is not part of
tether_linux.go: it is a parameter of the embedding, consulted for whether the
call on a session returns or panics in a given state. That it was called is
recorded in the exits of the tether. -/
abbrev Handler := tether → SessionRef → Outcome

/-- Modelled from the spec: t.removeChildPid, declared outside tether_linux.go.
The spec has the correlation table "consumed (removed) when that PID's
termination is observed", under a lock "held only for the lookup/remove
operation": the session the table holds for pid, if any, and the table without
pid. -/
def removeChildPid (t : tether) (pid : Int) : Option SessionRef × tether :=
  (t.childPids.lookup pid, { t with childPids := t.childPids.filter fun e => e.1 != pid })

/-- The assignment session.ExitStatus = code through the reference. -/
def setExitStatus (t : tether) (s : SessionRef) (code : Int) : tether :=
  { t with sessions := Function.update t.sessions s { t.sessions s with ExitStatus := code } }

/-- Lines 64-84 of childReaper: what the loop body does with a wait result
that did not end the loop. The outcome is panics when the exit handler
panicked. -/
def handleResult (h : Handler) (t : tether) (r : WaitResult) : tether × Outcome :=
  if r.err = none then
    if !WaitStatus.Exited r.status then
      (t, .returns)
    else
      match removeChildPid t r.pid with
      | (some session, t) =>
        let t := setExitStatus t session (WaitStatus.ExitStatus r.status)
        ({ t with exits := t.exits ++ [session] }, h t session)
      | (none, t) => (t, .returns)
  else
    (t, .returns)

/-- Where the drain loop of one notification stands. -/
inductive LoopStatus where
  /-- The loop is about to start an iteration. -/
  | running
  /-- The loop was left through break. -/
  | finished
  /-- A panic left the loop and the enclosing function. The deferred call is
  recover itself, which the Go specification gives no effect ("recover was not
  called directly by a deferred function"), so the panic goes on to end the
  process; were it recovered, the enclosing function would return here all the
  same. -/
  | panicked
  deriving DecidableEq, Repr

/-- The drain loop between two iterations: the tether, the number of Wait4
calls made and the status of the loop. -/
structure DrainState where
  t : tether
  calls : Nat
  status : LoopStatus

/-- One iteration of the loop at lines 57-85. The wait results are given by
the call number: wait i is what the i-th call of Wait4 yields. -/
def iteration (h : Handler) (wait : Nat → WaitResult) (d : DrainState) : DrainState :=
  match d.status with
  | .running =>
    let r := wait d.calls
    if r.pid = 0 || r.err = some ECHILD then
      { d with calls := d.calls + 1, status := .finished }
    else
      match handleResult h d.t r with
      | (t, .returns) => { t := t, calls := d.calls + 1, status := .running }
      | (t, .panics) => { t := t, calls := d.calls + 1, status := .panicked }
  | _ => d

/-- The function literal of lines 52-86, run for at most fuel iterations from
tether state t. -/
def drain (h : Handler) (wait : Nat → WaitResult) (fuel : Nat) (t : tether) : DrainState :=
  (iteration h wait)^[fuel] { t := t, calls := 0, status := .running }

/-- The source's stopReaper (tether_linux.go:91-98): signal.Reset(SIGCHLD),
then close(t.incoming), which panics on a closed or nil channel. -/
def stopReaper (t : tether) : tether × Outcome :=
  let t := { t with sigchldRelayed := false }
  match t.incoming with
  | .opened => ({ t with incoming := .closed }, .returns)
  | .closed => (t, .panics)
  | .nilChan => (t, .panics)

/-! ## Device numbers -/

/-- A Go int of a 64 bit platform (the tether is built for linux/amd64): the
integer x reduced to the two's complement range of 64 bits. -/
def wrapInt64 (x : Int) : Int := (x + 2 ^ 63) % 2 ^ 64 - 2 ^ 63

/-- Go x << k on an int. -/
def shiftLeftInt (x : Int) (k : Nat) : Int := wrapInt64 (x * 2 ^ k)

/-- The source's Mkdev (tether_linux.go:33-35):
(majorNumber << 8) | (minorNumber & 0xff) | ((minorNumber & 0xfff00) << 12). -/
def Mkdev (majorNumber minorNumber : Int) : Int :=
  Int.lor (Int.lor (shiftLeftInt majorNumber 8) (Int.land minorNumber 0xff))
    (shiftLeftInt (Int.land minorNumber 0xfff00) 12)

/-! ## Specification-side vocabulary for lookPath -/

/-- The candidate of a PATH segment d for a file name, in the words of the
specification: d + "/" + file, and "./" + file for the empty segment. -/
def candidate (d file : GoString) : GoString :=
  if d = [] then "./".toList ++ file else d ++ "/".toList ++ file

/-- The value of the session's PATH, in the words of the specification: what
follows "PATH=" in the first entry of env that starts with it; empty when env
has no such entry. -/
def sessionPathValue (env : List GoString) : GoString :=
  match env.find? fun e => HasPrefix e "PATH=".toList with
  | some entry => entry.drop 5
  | none => []

/-- The one candidate of a file name that contains a '/', in the words of the
specification. -/
def directCandidate (file dir : GoString) : GoString :=
  if HasPrefix file "./".toList || HasPrefix file "../".toList then dir ++ "/".toList ++ file
  else file

/-- The error lookPath builds when the search ends without a match. -/
def notInPath (file : GoString) : GoError :=
  .Errorf (file ++ ": no such executable in PATH".toList)

/-! ## Specification-side vocabulary for the reaper -/

/-- A wait result that ends the batch, in the words of the specification: it
has process ID 0 or the error ECHILD. -/
def endsBatch (r : WaitResult) : Bool := r.pid = 0 || r.err = some ECHILD

/-- Handling a list of wait results one after the other, each as the loop body
handles it, up to the first whose exit handler panics. -/
def handleAll (h : Handler) (t : tether) : List WaitResult → tether × Outcome
  | [] => (t, .returns)
  | r :: rs =>
    match handleResult h t r with
    | (t1, .returns) => handleAll h t1 rs
    | (t1, .panics) => (t1, .panics)

/-! ## Specification-side vocabulary for device numbers -/

/-- The major number of a device number d in the Linux layout, in the words of
the specification: (d >> 8) & 0xfff, the shift being Go's arithmetic one. -/
def devMajor (d : Int) : Int := Int.land (Int.shiftRight d 8) 0xfff

/-- The minor number of a device number d in the Linux layout, in the words of
the specification: (d & 0xff) | ((d >> 12) & 0xfff00). -/
def devMinor (d : Int) : Int :=
  Int.lor (Int.land d 0xff) (Int.land (Int.shiftRight d 12) 0xfff00)

end Tether

/-! ## Handles (lib/portlayer/exec/handle.go) -/

namespace Exec

/-- The source's Handle. Spec is the pointer h.Spec, none for nil; the type σ
of what it points to (spec.VirtualMachineConfigSpec) is declared outside
handle.go and is a parameter. The fields ExecConfig, Container and State, whose
types are declared outside handle.go as well, are carried as one value of a
parameter type ρ. -/
structure Handle (σ ρ : Type) where
  Spec : Option σ
  others : ρ
  key : Tether.GoString
  committed : Bool

/-- The source's Handle.SetSpec (handle.go:118-136): the handle after the call
and the returned error (none for nil). The argument fresh is the value the
composite literal of line 129 allocates. -/
def SetSpec {σ ρ : Type} (fresh : σ) (h : Handle σ ρ) (s : Option σ) :
    Handle σ ρ × Option Tether.GoError :=
  match h.Spec with
  | some _ =>
    match s with
    | some _ => (h, some (.Errorf "spec is already set".toList))
    | none => (h, none)
  | none =>
    let s := match s with
      | none => some fresh
      | some v => some v
    ({ h with Spec := s }, none)

/-- The error SetSpec returns. -/
def alreadySet : Tether.GoError := .Errorf "spec is already set".toList

end Exec

namespace Tether

/-! ## Concrete inputs -/

/-- A filesystem with the directories /usr/bin and /bin, an executable regular
file /bin/foo, a non-executable /bin/data, an executable named pipe /bin/pipe,
an executable ./foo under /work and an executable ./tool in the current
directory. -/
def exampleFS : FileSystem := fun p =>
  if p = "/bin/foo".toList then .ok 0o755
  else if p = "/bin/data".toList then .ok 0o644
  else if p = "/bin/pipe".toList then .ok (ModeNamedPipe ||| 0o755)
  else if p = "/bin".toList then .ok (ModeDir ||| 0o755)
  else if p = "/usr/bin".toList then .ok (ModeDir ||| 0o755)
  else if p = "/work/./foo".toList then .ok 0o700
  else if p = "./tool".toList then .ok 0o755
  else .error 2

/-- A tether with two running sessions: process 7 is session 0 and process 8
is session 1, both with ExitStatus 0 so far. -/
def exampleTether : tether :=
  { childPids := [(7, 0), (8, 1)]
    sessions := fun _ => { ExitStatus := 0 }
    exits := []
    incoming := .opened
    sigchldRelayed := true }

/-- A handler that always returns. -/
def quietHandler : Handler := fun _ _ => .returns

/-- A handler that panics on session 0 and returns on every other. -/
def faultyHandler : Handler := fun _ s => if s = 0 then .panics else .returns

/-- The wait results of the list rs, followed for ever by "no child to reap"
(pid 0). -/
def waitOf (rs : List WaitResult) : Nat → WaitResult :=
  fun i => rs.getD i { pid := 0, err := none, status := 0 }

/-- The status word of a normal exit with the given code. -/
def exitedWith (code : Nat) : WaitStatus := code <<< 8

/-- A batch of two exits: process 7 (session 0) exits with code 1, then
process 8 (session 1) with code 2, then no child is left to reap. -/
def twoExits : Nat → WaitResult :=
  waitOf [⟨7, none, exitedWith 1⟩, ⟨8, none, exitedWith 2⟩]

/-- A wait call that keeps failing with EINTR (pid -1). -/
def alwaysEINTR : Nat → WaitResult := fun _ => ⟨-1, some EINTR, 0⟩

/-! ## Evaluation of the embedding on the concrete inputs -/

example : lookPath exampleFS "foo".toList ["HOME=/".toList, "PATH=/usr/bin:/bin".toList] "/".toList
    = ⟨"/bin/foo".toList, none, ["/usr/bin/foo".toList, "/bin/foo".toList]⟩ := by decide

example : (lookPath exampleFS "tool".toList ["PATH=".toList] "/".toList).checked = [] := by decide

example : (lookPath exampleFS "tool".toList ["PATH=/bin:".toList] "/".toList).path
    = "./tool".toList := by decide

example : (drain quietHandler (waitOf [⟨7, none, exitedWith 3⟩, ⟨8, none, exitedWith 4⟩]) 5
    exampleTether).status = .finished := by decide

example : ((drain quietHandler (waitOf [⟨7, none, exitedWith 3⟩, ⟨8, none, exitedWith 4⟩]) 5
    exampleTether).t.sessions 1).ExitStatus = 4 := by decide

example : (drain quietHandler (waitOf [⟨7, none, exitedWith 3⟩, ⟨8, none, exitedWith 4⟩]) 5
    exampleTether).t.exits = [0, 1] := by decide

example : (drain quietHandler (waitOf [⟨7, none, 9⟩]) 5 exampleTether).t.childPids
    = [(7, 0), (8, 1)] := by decide

/-! ## Lemmas on lookPath -/

theorem hasPrefix_slash_mem {file pre : GoString} (hpre : '/' ∈ pre)
    (h : HasPrefix file pre = true) : '/' ∈ file := by
  unfold HasPrefix at h
  rw [List.isPrefixOf_iff_prefix] at h
  exact h.subset hpre

theorem contains_iff_mem (file : GoString) (c : Char) : Contains file c = true ↔ c ∈ file := by
  unfold Contains
  simp

theorem pathenvOf_eq_find (env : List GoString) :
    pathenvOf env = (env.find? fun e => HasPrefix e "PATH=".toList).getD [] := by
  induction env with
  | nil => rfl
  | cons value rest ih =>
    unfold pathenvOf
    rw [List.find?_cons]
    cases hv : HasPrefix value "PATH=".toList with
    | true => simp
    | false => simpa using ih

theorem trimmed_pathenv (env : List GoString) :
    TrimPrefix (pathenvOf env) "PATH=".toList = sessionPathValue env := by
  rw [pathenvOf_eq_find]
  unfold sessionPathValue
  cases hfind : env.find? fun e => HasPrefix e "PATH=".toList with
  | none => rfl
  | some entry =>
    have hp : HasPrefix entry "PATH=".toList = true := by
      simpa using List.find?_some hfind
    simp only [Option.getD_some, TrimPrefix, hp, if_true]
    rfl

theorem candidate_eq (d file : GoString) :
    (if d = [] then ['.'] else d) ++ ['/'] ++ file = candidate d file := by
  unfold candidate
  by_cases hd : d = []
  · simp [hd]
  · simp [hd]

theorem searchDirs_nil (fs : FileSystem) (file : GoString) (checked : List GoString) :
    searchDirs fs file [] checked = ⟨[], some (notInPath file), checked⟩ := by
  rw [searchDirs, notInPath]

theorem searchDirs_cons_pass (fs : FileSystem) (file dir : GoString)
    (rest checked : List GoString) (h : findExecutable fs (candidate dir file) = none) :
    searchDirs fs file (dir :: rest) checked
      = ⟨candidate dir file, none, checked ++ [candidate dir file]⟩ := by
  rw [searchDirs]
  simp only [candidate_eq, h]

theorem searchDirs_cons_fail (fs : FileSystem) (file dir : GoString)
    (rest checked : List GoString) (err : GoError)
    (h : findExecutable fs (candidate dir file) = some err) :
    searchDirs fs file (dir :: rest) checked
      = searchDirs fs file rest (checked ++ [candidate dir file]) := by
  rw [searchDirs]
  simp only [candidate_eq, h]

theorem searchDirs_first (fs : FileSystem) (file : GoString) (pre : List GoString)
    (d : GoString) (post checked : List GoString)
    (hpre : ∀ e ∈ pre, findExecutable fs (candidate e file) ≠ none)
    (hd : findExecutable fs (candidate d file) = none) :
    searchDirs fs file (pre ++ d :: post) checked
      = ⟨candidate d file, none,
          checked ++ pre.map (fun e => candidate e file) ++ [candidate d file]⟩ := by
  induction pre generalizing checked with
  | nil =>
    rw [List.nil_append, searchDirs_cons_pass _ _ _ _ _ hd, List.map_nil, List.append_nil]
  | cons e pre ih =>
    have he := hpre e (List.mem_cons_self _ _)
    have ih := ih (checked ++ [candidate e file])
      (fun x hx => hpre x (List.mem_cons_of_mem _ hx))
    cases hfe : findExecutable fs (candidate e file) with
    | none => exact absurd hfe he
    | some err =>
      rw [List.cons_append, searchDirs_cons_fail _ _ _ _ _ err hfe, ih]
      simp

theorem searchDirs_none (fs : FileSystem) (file : GoString) (dirs checked : List GoString)
    (hall : ∀ e ∈ dirs, findExecutable fs (candidate e file) ≠ none) :
    searchDirs fs file dirs checked
      = ⟨[], some (notInPath file), checked ++ dirs.map fun e => candidate e file⟩ := by
  induction dirs generalizing checked with
  | nil => simp [searchDirs_nil]
  | cons e dirs ih =>
    have he := hall e (List.mem_cons_self _ _)
    have ih := ih (checked ++ [candidate e file])
      (fun x hx => hall x (List.mem_cons_of_mem _ hx))
    cases hfe : findExecutable fs (candidate e file) with
    | none => exact absurd hfe he
    | some err =>
      rw [searchDirs_cons_fail _ _ _ _ _ err hfe, ih]
      simp

theorem searchDirs_err_none_of_pass (fs : FileSystem) (file : GoString)
    (dirs checked : List GoString)
    (hex : ∃ e ∈ dirs, findExecutable fs (candidate e file) = none) :
    (searchDirs fs file dirs checked).err = none := by
  induction dirs generalizing checked with
  | nil => simp at hex
  | cons e dirs ih =>
    cases hfe : findExecutable fs (candidate e file) with
    | none => rw [searchDirs_cons_pass _ _ _ _ _ hfe]
    | some err =>
      rw [searchDirs_cons_fail _ _ _ _ _ err hfe]
      apply ih
      obtain ⟨x, hx, hpass⟩ := hex
      rcases List.mem_cons.mp hx with rfl | hx
      · rw [hfe] at hpass; cases hpass
      · exact ⟨x, hx, hpass⟩

theorem lookPath_no_slash (fs : FileSystem) (file : GoString) (env : List GoString)
    (dir : GoString) (hfile : '/' ∉ file) :
    lookPath fs file env dir = searchDirs fs file (SplitList (sessionPathValue env)) [] := by
  have h1 : HasPrefix file "./".toList = false := by
    cases h : HasPrefix file "./".toList with
    | false => rfl
    | true => exact absurd (hasPrefix_slash_mem (by decide) h) hfile
  have h2 : HasPrefix file "../".toList = false := by
    cases h : HasPrefix file "../".toList with
    | false => rfl
    | true => exact absurd (hasPrefix_slash_mem (by decide) h) hfile
  have h3 : Contains file '/' = false := by
    cases h : Contains file '/' with
    | false => rfl
    | true => exact absurd ((contains_iff_mem _ _).mp h) hfile
  unfold lookPath
  simp only [h1, h2, h3, Bool.or_self, Bool.false_eq_true, if_false]
  rw [trimmed_pathenv]

theorem lookPath_relative (fs : FileSystem) (file : GoString) (env : List GoString)
    (dir : GoString)
    (hrel : (HasPrefix file "./".toList || HasPrefix file "../".toList) = true) :
    lookPath fs file env dir =
      match findExecutable fs (dir ++ ['/'] ++ file) with
      | none => ⟨dir ++ ['/'] ++ file, none, [dir ++ ['/'] ++ file]⟩
      | some err => ⟨[], some err, [dir ++ ['/'] ++ file]⟩ := by
  unfold lookPath; rw [if_pos hrel]

theorem lookPath_qualified (fs : FileSystem) (file : GoString) (env : List GoString)
    (dir : GoString)
    (hrel : ¬ (HasPrefix file "./".toList || HasPrefix file "../".toList) = true)
    (hc : Contains file '/' = true) :
    lookPath fs file env dir =
      match findExecutable fs file with
      | none => ⟨file, none, [file]⟩
      | some err => ⟨[], some err, [file]⟩ := by
  unfold lookPath; rw [if_neg hrel, if_pos hc]

theorem lookPath_search (fs : FileSystem) (file : GoString) (env : List GoString)
    (dir : GoString)
    (hrel : ¬ (HasPrefix file "./".toList || HasPrefix file "../".toList) = true)
    (hc : ¬ Contains file '/' = true) :
    lookPath fs file env dir = searchDirs fs file (SplitList (sessionPathValue env)) [] := by
  unfold lookPath; rw [if_neg hrel, if_neg hc]
  simp only []
  rw [trimmed_pathenv]

theorem searchDirs_err_none_checks (fs : FileSystem) (file : GoString)
    (dirs checked : List GoString) (h : (searchDirs fs file dirs checked).err = none) :
    findExecutable fs (searchDirs fs file dirs checked).path = none := by
  induction dirs generalizing checked with
  | nil => rw [searchDirs_nil] at h; cases h
  | cons e dirs ih =>
    cases hfe : findExecutable fs (candidate e file) with
    | none => rw [searchDirs_cons_pass _ _ _ _ _ hfe]; exact hfe
    | some err =>
      rw [searchDirs_cons_fail _ _ _ _ _ err hfe] at h ⊢
      exact ih _ h

theorem lookPath_err_none_checks (fs : FileSystem) (file : GoString) (env : List GoString)
    (dir : GoString) (h : (lookPath fs file env dir).err = none) :
    findExecutable fs (lookPath fs file env dir).path = none := by
  by_cases hrel : (HasPrefix file "./".toList || HasPrefix file "../".toList) = true
  · rw [lookPath_relative fs file env dir hrel] at h ⊢
    cases hfe : findExecutable fs (dir ++ ['/'] ++ file) with
    | none => exact hfe
    | some err => rw [hfe] at h; cases h
  · by_cases hc : Contains file '/' = true
    · rw [lookPath_qualified fs file env dir hrel hc] at h ⊢
      cases hfe : findExecutable fs file with
      | none => exact hfe
      | some err => rw [hfe] at h; cases h
    · rw [lookPath_search fs file env dir hrel hc] at h ⊢
      exact searchDirs_err_none_checks fs file _ _ h

/-! ## The claims on lookPath -/

/-- C1: for a file name without '/', lookPath takes the value of the first env
entry that starts with "PATH=", splits it into its segments (SplitList: on ':',
the empty value having none) and returns, with no error, the candidate of the
first segment whose candidate passes findExecutable: whenever the segments are
pre ++ d :: post, no candidate of pre passes and the candidate of d passes, the
result is the candidate of d, whatever post holds, and the candidates handed
to findExecutable are those of pre and of d, in order. -/
theorem lookPath_returns_first_passing_candidate (fs : FileSystem) (file : GoString)
    (env : List GoString) (dir : GoString) (hfile : '/' ∉ file)
    (pre : List GoString) (d : GoString) (post : List GoString)
    (hsegs : SplitList (sessionPathValue env) = pre ++ d :: post)
    (hpre : ∀ e ∈ pre, findExecutable fs (candidate e file) ≠ none)
    (hd : findExecutable fs (candidate d file) = none) :
    lookPath fs file env dir
      = ⟨candidate d file, none, pre.map (fun e => candidate e file) ++ [candidate d file]⟩ := by
  rw [lookPath_no_slash fs file env dir hfile, hsegs, searchDirs_first fs file pre d post [] hpre hd]
  simp

/-- Witness of C1: with PATH=/usr/bin:/bin and foo executable only in /bin,
resolving foo returns /bin/foo after /usr/bin/foo was tried. -/
theorem lookPath_returns_first_passing_candidate_witness :
    lookPath exampleFS "foo".toList ["HOME=/".toList, "PATH=/usr/bin:/bin".toList] "/work".toList
      = ⟨"/bin/foo".toList, none, ["/usr/bin/foo".toList, "/bin/foo".toList]⟩ :=
  lookPath_returns_first_passing_candidate exampleFS "foo".toList
    ["HOME=/".toList, "PATH=/usr/bin:/bin".toList] "/work".toList (by decide)
    ["/usr/bin".toList] "/bin".toList [] (by decide) (by decide) (by decide)

/-- C2: for a file name that starts with "./" or "../" or otherwise contains a
'/', lookPath hands exactly one candidate to findExecutable (dir + "/" + file
for the two prefixes, file itself otherwise), returns that candidate with no
error when the check passes and the check's error with an empty path when it
fails, and yields the same result for every env. -/
theorem lookPath_direct (fs : FileSystem) (file : GoString) (env : List GoString)
    (dir : GoString)
    (hfile : HasPrefix file "./".toList = true ∨ HasPrefix file "../".toList = true ∨ '/' ∈ file) :
    (lookPath fs file env dir).checked = [directCandidate file dir] ∧
    (findExecutable fs (directCandidate file dir) = none →
      (lookPath fs file env dir).path = directCandidate file dir ∧
      (lookPath fs file env dir).err = none) ∧
    (∀ e, findExecutable fs (directCandidate file dir) = some e →
      (lookPath fs file env dir).path = [] ∧ (lookPath fs file env dir).err = some e) ∧
    ∀ env2, lookPath fs file env2 dir = lookPath fs file env dir := by
  have hc : '/' ∈ file := by
    rcases hfile with h | h | h
    · exact hasPrefix_slash_mem (by decide) h
    · exact hasPrefix_slash_mem (by decide) h
    · exact h
  have hc2 : Contains file '/' = true := (contains_iff_mem _ _).mpr hc
  by_cases hrel : (HasPrefix file "./".toList || HasPrefix file "../".toList) = true
  · have hcand : directCandidate file dir = dir ++ ['/'] ++ file := by
      unfold directCandidate; rw [if_pos hrel]; rfl
    have hlook := fun env1 => lookPath_relative fs file env1 dir hrel
    rw [hcand]
    refine ⟨?_, ?_, ?_, ?_⟩
    · rw [hlook]; cases findExecutable fs (dir ++ ['/'] ++ file) <;> rfl
    · intro hp; rw [hlook, hp]; exact ⟨rfl, rfl⟩
    · intro e he; rw [hlook, he]; exact ⟨rfl, rfl⟩
    · intro env2; rw [hlook, hlook]
  · have hcand : directCandidate file dir = file := by
      unfold directCandidate; rw [if_neg hrel]
    have hlook := fun env1 => lookPath_qualified fs file env1 dir hrel hc2
    rw [hcand]
    refine ⟨?_, ?_, ?_, ?_⟩
    · rw [hlook]; cases findExecutable fs file <;> rfl
    · intro hp; rw [hlook, hp]; exact ⟨rfl, rfl⟩
    · intro e he; rw [hlook, he]; exact ⟨rfl, rfl⟩
    · intro env2; rw [hlook, hlook]

/-- Witness of C2: ./foo in the working directory /work is checked as
/work/./foo and nothing else, although PATH names /bin, where a foo exists. -/
theorem lookPath_direct_witness :
    (lookPath exampleFS "./foo".toList ["PATH=/bin".toList] "/work".toList).checked
      = [directCandidate "./foo".toList "/work".toList] ∧
    (lookPath exampleFS "./foo".toList ["PATH=/bin".toList] "/work".toList).path
      = "/work/./foo".toList :=
  ⟨(lookPath_direct exampleFS "./foo".toList ["PATH=/bin".toList] "/work".toList
      (Or.inl (by decide))).1,
   ((lookPath_direct exampleFS "./foo".toList ["PATH=/bin".toList] "/work".toList
      (Or.inl (by decide))).2.1 (by decide)).1⟩

/-- C3: for a file name without '/', lookPath returns the empty path with the
"no such executable in PATH" error exactly when no segment of the session's
PATH value has a candidate that passes findExecutable; when env has no PATH
entry, or its first PATH entry has the empty value, that is the result and no
path is checked at all. -/
theorem lookPath_not_found_iff (fs : FileSystem) (file : GoString) (env : List GoString)
    (dir : GoString) (hfile : '/' ∉ file) :
    (((lookPath fs file env dir).path = [] ∧
        (lookPath fs file env dir).err = some (notInPath file)) ↔
      ∀ d ∈ SplitList (sessionPathValue env), findExecutable fs (candidate d file) ≠ none) ∧
    (((env.find? fun e => HasPrefix e "PATH=".toList) = none ∨
        (env.find? fun e => HasPrefix e "PATH=".toList) = some "PATH=".toList) →
      lookPath fs file env dir = ⟨[], some (notInPath file), []⟩) := by
  rw [lookPath_no_slash fs file env dir hfile]
  constructor
  · constructor
    · rintro ⟨-, herr⟩ d hd hpass
      rw [searchDirs_err_none_of_pass fs file _ [] ⟨d, hd, hpass⟩] at herr
      cases herr
    · intro hall
      rw [searchDirs_none fs file _ [] hall]
      exact ⟨rfl, rfl⟩
  · intro hentry
    have hval : sessionPathValue env = [] := by
      unfold sessionPathValue
      rcases hentry with h | h <;> rw [h]
      rfl
    rw [hval]
    rfl

/-- Witness of C3: with PATH=/usr/bin no candidate of foo passes, and the
lookup fails with the error. -/
theorem lookPath_not_found_iff_witness :
    (lookPath exampleFS "foo".toList ["PATH=/usr/bin".toList] "/".toList).path = [] ∧
    (lookPath exampleFS "foo".toList ["PATH=/usr/bin".toList] "/".toList).err
      = some (notInPath "foo".toList) :=
  (lookPath_not_found_iff exampleFS "foo".toList ["PATH=/usr/bin".toList] "/".toList
    (by decide)).1.mpr (by decide)

/-- Counterexample to C4 as stated: a named pipe with execute bits passes
findExecutable, so lookPath returns a path that names no regular file. -/
theorem lookPath_returns_non_regular :
    ¬ ∀ (fs : FileSystem) (file : GoString) (env : List GoString) (dir : GoString),
        (lookPath fs file env dir).err = none →
        ∃ m, fs (lookPath fs file env dir).path = .ok m ∧ IsRegular m = true ∧ m &&& 0o111 ≠ 0 := by
  intro h
  obtain ⟨m, hm, hreg, -⟩ :=
    h exampleFS "pipe".toList ["PATH=/bin".toList] "/".toList (by decide)
  have hpath : (lookPath exampleFS "pipe".toList ["PATH=/bin".toList] "/".toList).path
      = "/bin/pipe".toList := by decide
  rw [hpath] at hm
  have hfs : exampleFS "/bin/pipe".toList = .ok (ModeNamedPipe ||| 0o755) := rfl
  rw [hfs] at hm
  cases hm
  revert hreg
  decide

/-- C4 (amended): every path that lookPath returns without error exists, is
not a directory and has at least one of the execute bits 0111 set. -/
theorem lookPath_returns_executable (fs : FileSystem) (file : GoString) (env : List GoString)
    (dir : GoString) (h : (lookPath fs file env dir).err = none) :
    ∃ m, fs (lookPath fs file env dir).path = .ok m ∧ IsDir m = false ∧ m &&& 0o111 ≠ 0 := by
  have hfe := lookPath_err_none_checks fs file env dir h
  unfold findExecutable at hfe
  cases hstat : fs (lookPath fs file env dir).path with
  | error errno => rw [hstat] at hfe; cases hfe
  | ok m =>
    rw [hstat] at hfe
    refine ⟨m, rfl, ?_⟩
    by_cases hc : (!IsDir m && (m &&& 0o111 != 0)) = true
    · simpa using hc
    · simp only [hc] at hfe
      cases hfe

/-- Witness of C4 (amended): /bin/foo, found through PATH=/usr/bin:/bin. -/
theorem lookPath_returns_executable_witness :
    ∃ m, exampleFS (lookPath exampleFS "foo".toList ["PATH=/usr/bin:/bin".toList] "/".toList).path
        = .ok m ∧ IsDir m = false ∧ m &&& 0o111 ≠ 0 :=
  lookPath_returns_executable exampleFS "foo".toList ["PATH=/usr/bin:/bin".toList] "/".toList
    (by decide)

/-! ## Lemmas on the correlation table -/

theorem lookup_filter_self (l : List (Int × SessionRef)) (pid : Int) :
    (l.filter fun e => e.1 != pid).lookup pid = none := by
  induction l with
  | nil => rfl
  | cons e l ih =>
    obtain ⟨k, v⟩ := e
    by_cases hk : k = pid
    · simp [List.filter_cons, hk, ih]
    · have hne : (pid == k) = false := by simpa using fun hc => hk hc.symm
      simp [List.filter_cons, hk, List.lookup_cons, hne, ih]

theorem filter_of_lookup_none (l : List (Int × SessionRef)) (pid : Int)
    (h : l.lookup pid = none) : (l.filter fun e => e.1 != pid) = l := by
  induction l with
  | nil => rfl
  | cons e l ih =>
    obtain ⟨k, v⟩ := e
    rw [List.lookup_cons] at h
    cases hk : (pid == k) with
    | true => rw [hk] at h; cases h
    | false =>
      rw [hk] at h
      have hne : k ≠ pid := by
        intro hc; rw [hc] at hk; simp at hk
      simp [List.filter_cons, hne, ih h]

theorem lookup_filter_none (l : List (Int × SessionRef)) (pid q : Int)
    (h : l.lookup pid = none) : (l.filter fun e => e.1 != q).lookup pid = none := by
  induction l with
  | nil => rfl
  | cons e l ih =>
    obtain ⟨k, v⟩ := e
    rw [List.lookup_cons] at h
    cases hk : (pid == k) with
    | true => rw [hk] at h; cases h
    | false =>
      rw [hk] at h
      by_cases hq : k = q
      · simp [List.filter_cons, hq, ih h]
      · simp [List.filter_cons, hq, List.lookup_cons, hk, ih h]

/-! ## Lemmas on the loop body -/

theorem handleResult_error (h : Handler) (t : tether) (r : WaitResult) (herr : r.err ≠ none) :
    handleResult h t r = (t, .returns) := by
  unfold handleResult
  rw [if_neg herr]

theorem handleResult_not_exited (h : Handler) (t : tether) (r : WaitResult)
    (hex : WaitStatus.Exited r.status = false) : handleResult h t r = (t, .returns) := by
  unfold handleResult
  by_cases herr : r.err = none
  · rw [if_pos herr, hex]; rfl
  · rw [if_neg herr]

theorem handleResult_unknown (h : Handler) (t : tether) (r : WaitResult)
    (habs : t.childPids.lookup r.pid = none) : handleResult h t r = (t, .returns) := by
  unfold handleResult
  by_cases herr : r.err = none
  · rw [if_pos herr]
    cases hex : WaitStatus.Exited r.status with
    | false => rfl
    | true =>
      simp only [Bool.not_true, Bool.false_eq_true, if_false, removeChildPid, habs,
        filter_of_lookup_none _ _ habs]
  · rw [if_neg herr]

theorem handleResult_known (h : Handler) (t : tether) (r : WaitResult) (s : SessionRef)
    (herr : r.err = none) (hex : WaitStatus.Exited r.status = true)
    (hs : t.childPids.lookup r.pid = some s) :
    handleResult h t r =
      ({ setExitStatus { t with childPids := t.childPids.filter fun e => e.1 != r.pid } s
            (WaitStatus.ExitStatus r.status) with
          exits := t.exits ++ [s] },
        h (setExitStatus { t with childPids := t.childPids.filter fun e => e.1 != r.pid } s
            (WaitStatus.ExitStatus r.status)) s) := by
  unfold handleResult
  rw [if_pos herr, hex]
  simp only [Bool.not_true, Bool.false_eq_true, if_false, removeChildPid, hs]
  rfl

theorem handleResult_keeps_absent (h : Handler) (t : tether) (r : WaitResult) (pid : Int)
    (habs : t.childPids.lookup pid = none) :
    (handleResult h t r).1.childPids.lookup pid = none := by
  by_cases herr : r.err = none
  · cases hex : WaitStatus.Exited r.status with
    | false => rw [handleResult_not_exited h t r hex]; exact habs
    | true =>
      cases hs : t.childPids.lookup r.pid with
      | none => rw [handleResult_unknown h t r hs]; exact habs
      | some s =>
        rw [handleResult_known h t r s herr hex hs]
        exact lookup_filter_none _ _ _ habs
  · rw [handleResult_error h t r herr]; exact habs

/-! ## Lemmas on the drain loop -/

theorem iteration_stopped (h : Handler) (wait : Nat → WaitResult) (d : DrainState)
    (hst : d.status ≠ .running) : iteration h wait d = d := by
  unfold iteration
  cases hs : d.status with
  | running => exact absurd hs hst
  | finished => rfl
  | panicked => rfl

theorem iteration_break (h : Handler) (wait : Nat → WaitResult) (d : DrainState)
    (hst : d.status = .running) (hend : endsBatch (wait d.calls) = true) :
    iteration h wait d = { t := d.t, calls := d.calls + 1, status := .finished } := by
  unfold iteration
  unfold endsBatch at hend
  rw [hst]
  simp only [hend, if_true]

theorem iteration_handle (h : Handler) (wait : Nat → WaitResult) (d : DrainState)
    (hst : d.status = .running) (hend : endsBatch (wait d.calls) = false) :
    iteration h wait d =
      { t := (handleResult h d.t (wait d.calls)).1, calls := d.calls + 1,
        status := match (handleResult h d.t (wait d.calls)).2 with
          | .returns => .running
          | .panics => .panicked } := by
  unfold iteration
  unfold endsBatch at hend
  rw [hst]
  simp only [hend, Bool.false_eq_true, if_false]
  rcases handleResult h d.t (wait d.calls) with ⟨t1, o⟩
  cases o <;> rfl

theorem drain_zero (h : Handler) (wait : Nat → WaitResult) (t : tether) :
    drain h wait 0 t = { t := t, calls := 0, status := .running } := rfl

theorem drain_succ (h : Handler) (wait : Nat → WaitResult) (n : Nat) (t : tether) :
    drain h wait (n + 1) t = iteration h wait (drain h wait n t) := by
  unfold drain
  rw [Function.iterate_succ_apply']

theorem drain_stable (h : Handler) (wait : Nat → WaitResult) (n : Nat) (t : tether)
    (hst : (drain h wait n t).status ≠ .running) (m : Nat) :
    drain h wait (n + m) t = drain h wait n t := by
  induction m with
  | zero => rfl
  | succ m ih =>
    rw [← Nat.add_assoc, drain_succ, ih, iteration_stopped h wait _ hst]

theorem drain_calls (h : Handler) (wait : Nat → WaitResult) (n : Nat) (t : tether)
    (hst : (drain h wait n t).status = .running) : (drain h wait n t).calls = n := by
  induction n with
  | zero => rfl
  | succ n ih =>
    rw [drain_succ] at hst ⊢
    by_cases hn : (drain h wait n t).status = .running
    · by_cases hend : endsBatch (wait (drain h wait n t).calls) = true
      · rw [iteration_break h wait _ hn hend] at hst
        cases hst
      · have hend2 : endsBatch (wait (drain h wait n t).calls) = false := by
          simpa using hend
        rw [iteration_handle h wait _ hn hend2]
        exact congrArg (· + 1) (ih hn)
    · rw [iteration_stopped h wait _ hn] at hst
      exact absurd hst hn

theorem iteration_keeps_absent (h : Handler) (wait : Nat → WaitResult) (d : DrainState)
    (pid : Int) (habs : d.t.childPids.lookup pid = none) :
    (iteration h wait d).t.childPids.lookup pid = none := by
  by_cases hst : d.status = .running
  · by_cases hend : endsBatch (wait d.calls) = true
    · rw [iteration_break h wait d hst hend]; exact habs
    · have hend2 : endsBatch (wait d.calls) = false := by simpa using hend
      rw [iteration_handle h wait d hst hend2]
      exact handleResult_keeps_absent h d.t _ pid habs
  · rw [iteration_stopped h wait d hst]; exact habs

theorem drain_keeps_absent (h : Handler) (wait : Nat → WaitResult) (t : tether) (pid : Int)
    (n m : Nat) (habs : (drain h wait n t).t.childPids.lookup pid = none) :
    (drain h wait (n + m) t).t.childPids.lookup pid = none := by
  induction m with
  | zero => exact habs
  | succ m ih =>
    rw [← Nat.add_assoc, drain_succ]
    exact iteration_keeps_absent h wait _ pid ih

theorem handleAll_append (h : Handler) (t : tether) (rs qs : List WaitResult) :
    handleAll h t (rs ++ qs) =
      match handleAll h t rs with
      | (t1, .returns) => handleAll h t1 qs
      | (t1, .panics) => (t1, .panics) := by
  induction rs generalizing t with
  | nil => rfl
  | cons r rs ih =>
    rw [List.cons_append, handleAll, handleAll]
    rcases handleResult h t r with ⟨t1, o⟩
    cases o with
    | returns => exact ih t1
    | panics => rfl

theorem handleAll_single (h : Handler) (t : tether) (r : WaitResult) :
    handleAll h t [r] = handleResult h t r := by
  rw [handleAll]
  rcases handleResult h t r with ⟨t1, o⟩
  cases o <;> rfl

theorem drain_prefix (h : Handler) (wait : Nat → WaitResult) (t : tether) (n : Nat)
    (hbefore : ∀ i, i < n → endsBatch (wait i) = false)
    (hquiet : (handleAll h t ((List.range n).map wait)).2 = .returns) :
    drain h wait n t
      = { t := (handleAll h t ((List.range n).map wait)).1, calls := n, status := .running } := by
  induction n with
  | zero => rfl
  | succ n ih =>
    rw [List.range_succ, List.map_append, handleAll_append] at hquiet ⊢
    simp only [List.map_singleton, handleAll_single] at hquiet ⊢
    have hb : ∀ i, i < n → endsBatch (wait i) = false :=
      fun i hi => hbefore i (Nat.lt_succ_of_lt hi)
    rcases hall : handleAll h t ((List.range n).map wait) with ⟨t1, o⟩
    rw [hall] at hquiet ih
    cases o with
    | panics => cases hquiet
    | returns =>
      have ih := ih hb rfl
      simp only at hquiet ih ⊢
      rw [drain_succ, ih, iteration_handle h wait _ rfl (hbefore n (Nat.lt_succ_self n))]
      simp only [hquiet]

/-! ## The claims on the child reaper -/

/-- C5: when the table maps process ID P to a session and the drain loop
receives a wait result reporting that P exited with code E, that session's
ExitStatus becomes E, the exit handler is invoked for it exactly once (one
entry is added to the exits), no other session changes and P leaves the
table; a later wait result of the same notification that again reports an exit
of P changes nothing in the tether state, whatever was handled in between, and
the loop goes on. -/
theorem reaper_sets_exit_status_once (h : Handler) (wait : Nat → WaitResult) (t : tether)
    (P : Int) (s : SessionRef) (status : WaitStatus) (E : Int)
    (hP : P ≠ 0) (hwait : wait 0 = ⟨P, none, status⟩)
    (hex : WaitStatus.Exited status = true) (hE : WaitStatus.ExitStatus status = E)
    (hs : t.childPids.lookup P = some s) :
    ((drain h wait 1 t).t.sessions s).ExitStatus = E ∧
    (drain h wait 1 t).t.exits = t.exits ++ [s] ∧
    (∀ s2, s2 ≠ s → (drain h wait 1 t).t.sessions s2 = t.sessions s2) ∧
    (drain h wait 1 t).t.childPids.lookup P = none ∧
    ∀ k status2, 1 ≤ k → wait k = ⟨P, none, status2⟩ → WaitStatus.Exited status2 = true →
      (drain h wait (k + 1) t).t = (drain h wait k t).t ∧
      ((drain h wait k t).status = .running →
        (drain h wait (k + 1) t).status = .running) := by
  have hend0 : endsBatch (wait 0) = false := by
    rw [hwait]; unfold endsBatch; simp [hP]
  have hres : handleResult h t (wait 0) = _ :=
    handleResult_known h t (wait 0) s (by rw [hwait]) (by rw [hwait]; exact hex)
      (by rw [hwait]; exact hs)
  have hd1 : (drain h wait 1 t).t = (handleResult h t (wait 0)).1 := by
    rw [drain_succ, drain_zero, iteration_handle h wait _ rfl hend0]
  have habs1 : (drain h wait 1 t).t.childPids.lookup P = none := by
    rw [hd1, hres]
    have hpid : (wait 0).pid = P := by rw [hwait]
    rw [hpid]
    exact lookup_filter_self _ _
  refine ⟨?_, ?_, ?_, habs1, ?_⟩
  · rw [hd1, hres]
    have hst : (wait 0).status = status := by rw [hwait]
    simp [setExitStatus, hst, hE]
  · rw [hd1, hres]
  · intro s2 hne
    rw [hd1, hres]
    simp [setExitStatus, Function.update_noteq hne]
  · intro k status2 hk hwk hex2
    obtain ⟨m, rfl⟩ : ∃ m, k = 1 + m := ⟨k - 1, by omega⟩
    have habs := drain_keeps_absent h wait t P 1 m habs1
    rw [drain_succ]
    by_cases hrun : (drain h wait (1 + m) t).status = .running
    · have hcalls := drain_calls h wait (1 + m) t hrun
      have hpid : (wait (drain h wait (1 + m) t).calls).pid = P := by rw [hcalls, hwk]
      have hend : endsBatch (wait (drain h wait (1 + m) t).calls) = false := by
        rw [hcalls, hwk]; unfold endsBatch; simp [hP]
      rw [iteration_handle h wait _ hrun hend,
        handleResult_unknown h _ _ (by rw [hpid]; exact habs)]
      exact ⟨rfl, fun _ => rfl⟩
    · rw [iteration_stopped h wait _ hrun]
      exact ⟨rfl, fun hc => absurd hc hrun⟩

/-- Witness of C5: process 7 (session 0) exits with code 3 and is then
reported once more. -/
theorem reaper_sets_exit_status_once_witness :
    ((drain quietHandler (waitOf [⟨7, none, exitedWith 3⟩, ⟨7, none, exitedWith 5⟩]) 1
        exampleTether).t.sessions 0).ExitStatus = 3 ∧
    (drain quietHandler (waitOf [⟨7, none, exitedWith 3⟩, ⟨7, none, exitedWith 5⟩]) 2
        exampleTether).t
      = (drain quietHandler (waitOf [⟨7, none, exitedWith 3⟩, ⟨7, none, exitedWith 5⟩]) 1
        exampleTether).t :=
  ⟨(reaper_sets_exit_status_once quietHandler
      (waitOf [⟨7, none, exitedWith 3⟩, ⟨7, none, exitedWith 5⟩]) exampleTether 7 0
      (exitedWith 3) 3 (by decide) rfl (by decide) (by decide) (by decide)).1,
   ((reaper_sets_exit_status_once quietHandler
      (waitOf [⟨7, none, exitedWith 3⟩, ⟨7, none, exitedWith 5⟩]) exampleTether 7 0
      (exitedWith 3) 3 (by decide) rfl (by decide) (by decide) (by decide)).2.2.2.2
      1 (exitedWith 5) (le_refl 1) rfl (by decide)).1⟩

/-- C6: a wait result that reports the exit of a process ID with no entry in
the correlation table raises no fault, leaves the whole tether state (table,
sessions, exits) as it was, and the loop goes on to the next wait result. -/
theorem reaper_discards_unknown_pid (h : Handler) (wait : Nat → WaitResult) (d : DrainState)
    (hrun : d.status = .running) (hpid : (wait d.calls).pid ≠ 0)
    (herr : (wait d.calls).err = none)
    (_hex : WaitStatus.Exited (wait d.calls).status = true)
    (habs : d.t.childPids.lookup (wait d.calls).pid = none) :
    iteration h wait d = { t := d.t, calls := d.calls + 1, status := .running } := by
  have hend : endsBatch (wait d.calls) = false := by
    unfold endsBatch; simp [hpid, herr]
  rw [iteration_handle h wait d hrun hend, handleResult_unknown h d.t _ habs]

/-- Witness of C6: process 99 is in no table entry. -/
theorem reaper_discards_unknown_pid_witness :
    iteration faultyHandler (waitOf [⟨99, none, exitedWith 1⟩])
        { t := exampleTether, calls := 0, status := .running }
      = { t := exampleTether, calls := 1, status := .running } :=
  reaper_discards_unknown_pid faultyHandler (waitOf [⟨99, none, exitedWith 1⟩])
    { t := exampleTether, calls := 0, status := .running } rfl (by decide) (by decide)
    (by decide) (by decide)

/-- C7 fails for a process killed by a signal: status word 9 (killed by
SIGKILL) is signaled and not exited, the loop takes the "non-exit status
change" branch, and process 7 stays in the table with its session untouched
and no exit handler invoked, although Wait4 has reaped the process. -/
theorem signaled_child_entry_stays :
    WaitStatus.Signaled 9 = true ∧ WaitStatus.Exited 9 = false ∧
    (drain quietHandler (waitOf [⟨7, none, 9⟩]) 2 exampleTether).status = .finished ∧
    (drain quietHandler (waitOf [⟨7, none, 9⟩]) 2 exampleTether).t.childPids.lookup 7
      = some 0 ∧
    (drain quietHandler (waitOf [⟨7, none, 9⟩]) 2 exampleTether).t.exits = [] ∧
    ((drain quietHandler (waitOf [⟨7, none, 9⟩]) 2 exampleTether).t.sessions 0).ExitStatus
      = 0 := by
  decide

/-- C8 fails when the exit handler panics: in the batch twoExits the handler
faults on process 7, the loop is left after that one Wait4 call however many
iterations it is given, and process 8 is not handled: it stays in the table,
its session keeps ExitStatus 0 and the handler is not invoked for it. With a
handler that returns, the same batch sets the ExitStatus of session 1 to 2. -/
theorem fault_aborts_batch (fuel : Nat) :
    (drain faultyHandler twoExits (fuel + 1) exampleTether).status = .panicked ∧
    (drain faultyHandler twoExits (fuel + 1) exampleTether).calls = 1 ∧
    (drain faultyHandler twoExits (fuel + 1) exampleTether).t.childPids.lookup 8 = some 1 ∧
    ((drain faultyHandler twoExits (fuel + 1) exampleTether).t.sessions 1).ExitStatus = 0 ∧
    (drain faultyHandler twoExits (fuel + 1) exampleTether).t.exits = [0] ∧
    ((drain quietHandler twoExits 3 exampleTether).t.sessions 1).ExitStatus = 2 := by
  have h1 : (drain faultyHandler twoExits 1 exampleTether).status ≠ .running := by decide
  rw [Nat.add_comm, drain_stable faultyHandler twoExits 1 exampleTether h1 fuel]
  decide

/-- Counterexample to C9 as stated: after a first stopReaper that returned, a
second call does not return normally. -/
theorem stopReaper_twice_panics :
    ¬ ∀ t t1 : tether, stopReaper t = (t1, .returns) → stopReaper t1 = (t1, .returns) := by
  intro hall
  have h2 := hall exampleTether
    { exampleTether with sigchldRelayed := false, incoming := .closed } rfl
  have hout := congrArg Prod.snd h2
  revert hout
  decide

/-- C9 (amended): stopReaper is safe to call once. On every tether state on
which it has already run and returned, SIGCHLD handling is reset and the
incoming channel is closed, and a second call panics (close of a closed
channel), leaving that state as it is. -/
theorem stopReaper_second_call (t t1 : tether) (hfirst : stopReaper t = (t1, .returns)) :
    t1.sigchldRelayed = false ∧ t1.incoming = .closed ∧
    stopReaper t1 = (t1, .panics) := by
  unfold stopReaper at hfirst
  cases hin : t.incoming with
  | opened =>
    simp only [hin] at hfirst
    cases hfirst
    exact ⟨rfl, rfl, rfl⟩
  | closed =>
    simp only [hin] at hfirst
    cases hfirst
  | nilChan =>
    simp only [hin] at hfirst
    cases hfirst

/-- Witness of C9 (amended): the first call on the example tether returns. -/
theorem stopReaper_second_call_witness :
    stopReaper { exampleTether with sigchldRelayed := false, incoming := .closed }
      = ({ exampleTether with sigchldRelayed := false, incoming := .closed }, .panics) :=
  (stopReaper_second_call exampleTether
    { exampleTether with sigchldRelayed := false, incoming := .closed } rfl).2.2

/-- Counterexample to C10 as stated: when Wait4 keeps returning EINTR the loop
never ends, whatever number of iterations it is given. -/
theorem drain_spins_on_error :
    ¬ ∃ fuel, (drain quietHandler alwaysEINTR fuel exampleTether).status ≠ .running := by
  rintro ⟨fuel, hfuel⟩
  apply hfuel
  clear hfuel
  induction fuel with
  | zero => rfl
  | succ n ih =>
    rw [drain_succ, iteration_handle quietHandler alwaysEINTR _ ih rfl,
      handleResult_error quietHandler _ _ (by simp [alwaysEINTR])]

/-- C10 (amended): when the n-th wait result is the first that has process ID
0 or error ECHILD, and no exit handler panics before it, the loop handles the
results before it one after the other, in order, and ends with the Wait4 call
that yields it: after n + 1 iterations the loop is finished, n + 1 calls were
made, and more iterations change nothing. -/
theorem drain_stops_at_first_end (h : Handler) (wait : Nat → WaitResult) (t : tether) (n : Nat)
    (hend : endsBatch (wait n) = true)
    (hbefore : ∀ i, i < n → endsBatch (wait i) = false)
    (hquiet : (handleAll h t ((List.range n).map wait)).2 = .returns) :
    drain h wait (n + 1) t
      = { t := (handleAll h t ((List.range n).map wait)).1, calls := n + 1,
          status := .finished } ∧
    ∀ fuel, n + 1 ≤ fuel → drain h wait fuel t = drain h wait (n + 1) t := by
  have hfin : drain h wait (n + 1) t
      = { t := (handleAll h t ((List.range n).map wait)).1, calls := n + 1,
          status := .finished } := by
    rw [drain_succ, drain_prefix h wait t n hbefore hquiet, iteration_break h wait _ rfl hend]
  refine ⟨hfin, ?_⟩
  intro fuel hfuel
  obtain ⟨m, rfl⟩ : ∃ m, fuel = n + 1 + m := ⟨fuel - (n + 1), by omega⟩
  exact drain_stable h wait (n + 1) t (by rw [hfin]; simp) m

/-- Witness of C10 (amended): the batch twoExits ends with its third wait
result, after both exits were handled. -/
theorem drain_stops_at_first_end_witness :
    drain quietHandler twoExits (2 + 1) exampleTether
      = { t := (handleAll quietHandler exampleTether ((List.range 2).map twoExits)).1,
          calls := 2 + 1, status := .finished } :=
  (drain_stops_at_first_end quietHandler twoExits exampleTether 2 (by decide) (by decide)
    (by decide)).1

/-! ## Lemmas on wait statuses -/

theorem stopped_not_exited (w : WaitStatus) (h : WaitStatus.Stopped w = true) :
    WaitStatus.Exited w = false := by
  unfold WaitStatus.Stopped at h
  unfold WaitStatus.Exited
  have h1 : w &&& 0xFF = 0x7F := by simpa using h
  have h2 : w &&& 0x7F = (w &&& 0xFF) &&& 0x7F := by
    rw [Nat.land_assoc]; rfl
  rw [h2, h1]
  rfl

theorem continued_not_exited (w : WaitStatus) (h : WaitStatus.Continued w = true) :
    WaitStatus.Exited w = false := by
  unfold WaitStatus.Continued at h
  have h1 : w = 0xFFFF := by simpa using h
  rw [h1]
  rfl

/-- C11: a wait result that does not end the batch and whose status is not an
exit (a stopped or a continued process, for example) is skipped: the whole
tether state (correlation table, every session's ExitStatus, the exits handed
to the exit handler) is as before, the loop does not fault, and it continues
with the next Wait4 call. -/
theorem reaper_skips_non_exit (h : Handler) (wait : Nat → WaitResult) (d : DrainState)
    (hrun : d.status = .running) (hgo : endsBatch (wait d.calls) = false)
    (hex : WaitStatus.Exited (wait d.calls).status = false) :
    iteration h wait d = { t := d.t, calls := d.calls + 1, status := .running } := by
  rw [iteration_handle h wait d hrun hgo, handleResult_not_exited h d.t _ hex]

/-- Witness of C11: process 7, which is in the table, is reported as stopped
by SIGSTOP (status word 0x137F); its entry and its session stay as they are. -/
theorem reaper_skips_non_exit_witness :
    iteration faultyHandler (waitOf [⟨7, none, 0x137F⟩])
        { t := exampleTether, calls := 0, status := .running }
      = { t := exampleTether, calls := 1, status := .running } :=
  reaper_skips_non_exit faultyHandler (waitOf [⟨7, none, 0x137F⟩])
    { t := exampleTether, calls := 0, status := .running } rfl (by decide)
    (stopped_not_exited _ (by decide))

/-! ## Lemmas on device numbers -/

theorem land_ff (x : Nat) : x &&& 0xff = x % 256 :=
  Nat.and_pow_two_sub_one_eq_mod x 8

theorem land_fff (x : Nat) : x &&& 0xfff = x % 4096 :=
  Nat.and_pow_two_sub_one_eq_mod x 12

theorem land_fff00 (x : Nat) : x &&& 0xfff00 = x / 256 % 4096 * 256 := by
  have hc : (0xfff00 : Nat) = 2 ^ 8 * (2 ^ 12 - 1) := by norm_num
  have hr : x / 256 % 4096 * 256 = 2 ^ 8 * ((x >>> 8) % 2 ^ 12) := by
    rw [Nat.shiftRight_eq_div_pow, Nat.mul_comm]
    rfl
  rw [hc, hr]
  apply Nat.eq_of_testBit_eq
  intro i
  rw [Nat.testBit_and, Nat.testBit_mul_pow_two, Nat.testBit_mul_pow_two,
    Nat.testBit_two_pow_sub_one, Nat.testBit_mod_two_pow, Nat.testBit_shiftRight]
  by_cases hi : 8 ≤ i
  · have hsum : 8 + (i - 8) = i := by omega
    simp [hi, hsum, Bool.and_comm]
  · simp [hi]

theorem lor_disjoint (a b k : Nat) (hb : b < 2 ^ k) : a * 2 ^ k ||| b = a * 2 ^ k + b := by
  rw [Nat.mul_comm, ← Nat.mul_add_lt_is_or hb]

theorem pack_nat (M m : Nat) (hM : M < 2 ^ 12) (hm : m < 2 ^ 20) :
    (M * 2 ^ 8 ||| m &&& 0xff) ||| (m &&& 0xfff00) * 2 ^ 12
      = m / 256 * 2 ^ 20 + (M * 256 + m % 256) := by
  rw [land_ff, land_fff00, lor_disjoint M (m % 256) 8 (by omega)]
  have h1 : m / 256 % 4096 * 256 * 2 ^ 12 = m / 256 * 2 ^ 20 := by
    have hsmall : m / 256 % 4096 = m / 256 := by omega
    rw [hsmall, Nat.mul_assoc]
    rfl
  rw [h1, Nat.lor_comm, lor_disjoint (m / 256) _ 20 (by omega)]
  rfl

theorem unpack_major_nat (M m : Nat) (hM : M < 2 ^ 12) :
    ((m / 256 * 2 ^ 20 + (M * 256 + m % 256)) >>> 8) &&& 0xfff = M := by
  rw [land_fff, Nat.shiftRight_eq_div_pow]
  omega

theorem unpack_minor_nat (M m : Nat) (hM : M < 2 ^ 12) (hm : m < 2 ^ 20) :
    ((m / 256 * 2 ^ 20 + (M * 256 + m % 256)) &&& 0xff) |||
      (((m / 256 * 2 ^ 20 + (M * 256 + m % 256)) >>> 12) &&& 0xfff00) = m := by
  rw [land_ff, land_fff00, Nat.shiftRight_eq_div_pow, Nat.lor_comm]
  have h1 : (m / 256 * 2 ^ 20 + (M * 256 + m % 256)) / 2 ^ 12 / 256 % 4096 = m / 256 := by
    rw [Nat.div_div_eq_div_mul]
    omega
  have h2 : (m / 256 * 2 ^ 20 + (M * 256 + m % 256)) % 256 = m % 256 := by omega
  rw [h1, h2, show (256 : Nat) = 2 ^ 8 from rfl, lor_disjoint _ _ 8 (by omega)]
  omega

theorem wrapInt64_small (x : Nat) (hx : x < 2 ^ 63) : wrapInt64 (x : Int) = (x : Int) := by
  unfold wrapInt64
  omega

theorem Mkdev_natCast (M m : Nat) (hM : M < 2 ^ 12) (hm : m < 2 ^ 20) :
    Mkdev (M : Int) (m : Int) = ((m / 256 * 2 ^ 20 + (M * 256 + m % 256) : Nat) : Int) := by
  have e1 : shiftLeftInt (M : Int) 8 = ((M * 2 ^ 8 : Nat) : Int) := by
    unfold shiftLeftInt
    rw [← wrapInt64_small (M * 2 ^ 8) (by omega)]
    push_cast
    rfl
  have e2 : Int.land (m : Int) 0xfff00 = ((m &&& 0xfff00 : Nat) : Int) := rfl
  have hle : m &&& 0xfff00 ≤ 0xfff00 := Nat.and_le_right
  have e3 : shiftLeftInt ((m &&& 0xfff00 : Nat) : Int) 12
      = (((m &&& 0xfff00) * 2 ^ 12 : Nat) : Int) := by
    unfold shiftLeftInt
    rw [← wrapInt64_small ((m &&& 0xfff00) * 2 ^ 12) (by omega)]
    push_cast
    rfl
  unfold Mkdev
  rw [e1, e2, e3, ← pack_nat M m hM hm]
  rfl

theorem Mkdev_roundtrip (major minor : Int) (h1 : 0 ≤ major) (h2 : major < 2 ^ 12)
    (h3 : 0 ≤ minor) (h4 : minor < 2 ^ 20) :
    devMajor (Mkdev major minor) = major ∧ devMinor (Mkdev major minor) = minor := by
  obtain ⟨M, rfl⟩ := Int.eq_ofNat_of_zero_le h1
  obtain ⟨m, rfl⟩ := Int.eq_ofNat_of_zero_le h3
  have hM : M < 2 ^ 12 := by exact_mod_cast h2
  have hm : m < 2 ^ 20 := by exact_mod_cast h4
  rw [Mkdev_natCast M m hM hm]
  constructor
  · exact congrArg Int.ofNat (unpack_major_nat M m hM)
  · exact congrArg Int.ofNat (unpack_minor_nat M m hM hm)

/-- C12: Mkdev packs a device number losslessly in the Linux dev_t layout:
for 0 <= major < 2^12 and 0 <= minor < 2^20, d = Mkdev(major, minor) has
(d >> 8) & 0xfff == major and (d & 0xff) | ((d >> 12) & 0xfff00) == minor, so
two pairs of that range with the same device number are the same pair. -/
theorem Mkdev_lossless (major minor : Int) (h1 : 0 ≤ major) (h2 : major < 2 ^ 12)
    (h3 : 0 ≤ minor) (h4 : minor < 2 ^ 20) :
    devMajor (Mkdev major minor) = major ∧ devMinor (Mkdev major minor) = minor ∧
    ∀ major2 minor2 : Int, 0 ≤ major2 → major2 < 2 ^ 12 → 0 ≤ minor2 → minor2 < 2 ^ 20 →
      Mkdev major minor = Mkdev major2 minor2 → major = major2 ∧ minor = minor2 := by
  obtain ⟨hmaj, hmin⟩ := Mkdev_roundtrip major minor h1 h2 h3 h4
  refine ⟨hmaj, hmin, ?_⟩
  intro major2 minor2 g1 g2 g3 g4 heq
  obtain ⟨hmaj2, hmin2⟩ := Mkdev_roundtrip major2 minor2 g1 g2 g3 g4
  constructor
  · rw [← hmaj, heq, hmaj2]
  · rw [← hmin, heq, hmin2]

/-- Witness of C12: major 253 and minor 0x12345, whose upper twelve bits go
above the major number. -/
theorem Mkdev_lossless_witness :
    Mkdev 253 0x12345 = 0x1230fd45 ∧
    devMajor (Mkdev 253 0x12345) = 253 ∧ devMinor (Mkdev 253 0x12345) = 0x12345 :=
  ⟨by decide,
   (Mkdev_lossless 253 0x12345 (by decide) (by decide) (by decide) (by decide)).1,
   (Mkdev_lossless 253 0x12345 (by decide) (by decide) (by decide) (by decide)).2.1⟩

end Tether

namespace Exec

/-! ## The claim on Handle.SetSpec -/

/-- C13: Handle.SetSpec never replaces a spec that is already set. It returns
the error "spec is already set" exactly when h.Spec and s are both non-nil, and
no other error; when h.Spec was non-nil the handle is left as it was; when
h.Spec was nil it becomes s, or the fresh empty spec when s is nil, and the
other fields stay; whenever SetSpec returns nil, h.Spec is non-nil afterwards;
and SetSpec(nil) always returns nil, so it makes sure there is a spec. -/
theorem SetSpec_never_replaces {σ ρ : Type} (fresh : σ) (h : Handle σ ρ) (s : Option σ) :
    ((SetSpec fresh h s).2 = some alreadySet ↔ (h.Spec ≠ none ∧ s ≠ none)) ∧
    ((SetSpec fresh h s).2 = none ∨ (SetSpec fresh h s).2 = some alreadySet) ∧
    (h.Spec ≠ none → (SetSpec fresh h s).1 = h) ∧
    (h.Spec = none → ∀ v, s = some v → (SetSpec fresh h s).1 = { h with Spec := some v }) ∧
    (h.Spec = none → s = none → (SetSpec fresh h s).1 = { h with Spec := some fresh }) ∧
    ((SetSpec fresh h s).2 = none → (SetSpec fresh h s).1.Spec ≠ none) ∧
    ((SetSpec fresh h none).2 = none ∧ (SetSpec fresh h none).1.Spec ≠ none) := by
  obtain ⟨spec, others, key, committed⟩ := h
  cases spec <;> cases s <;> simp [SetSpec, alreadySet]

/-- The four cases of SetSpec on a handle with key "k": spec set or not,
argument nil or not. -/
theorem SetSpec_cases :
    SetSpec 0 (⟨some 5, (), "k".toList, false⟩ : Handle Nat Unit) (some 7)
      = (⟨some 5, (), "k".toList, false⟩, some alreadySet) ∧
    SetSpec 0 (⟨some 5, (), "k".toList, false⟩ : Handle Nat Unit) none
      = (⟨some 5, (), "k".toList, false⟩, none) ∧
    SetSpec 0 (⟨none, (), "k".toList, false⟩ : Handle Nat Unit) (some 7)
      = (⟨some 7, (), "k".toList, false⟩, none) ∧
    SetSpec 0 (⟨none, (), "k".toList, false⟩ : Handle Nat Unit) none
      = (⟨some 0, (), "k".toList, false⟩, none) :=
  ⟨rfl, rfl, rfl, rfl⟩

end Exec
